import Mathlib

/-!
Verification development for the knip repository.

Part 1 embeds `getDependencies` from
`packages/knip/src/plugins/expo/helpers.ts` (the expo plugin's dependency
attribution function) together with the small utilities it imports
(`toDependency`, `toProductionDependency` from `util/input.ts` and
`getPackageNameFromModuleSpecifier` from `util/modules.ts`; those two files
are not part of the source snapshot, so they are modelled from the spec).

Part 2 models, from the spec and the repository documentation page
(`Handling Issues`), the parts of the reachability / reference-resolution
engine that the remaining claims are about: the unused-file computation
(`unused files = project files - (entry files + resolved files)`), the
treatment of dynamic import specifiers, the reference edges contributed by
namespace-import use sites, and the unused-exports classifier.
-/

namespace Knip

/-! ### Inputs (modelled from the spec)

`Modelled from the spec:` the files `util/input.ts` and `util/modules.ts`
are not in the source snapshot.  The spec describes a set of attributed
dependencies with an "optional production-vs-dev classification per
attributed dep"; an `Input` is a package specifier together with that
classification.  `toDependency` attributes a plain dependency,
`toProductionDependency` a production dependency. -/
structure Input where
  specifier : String
  production : Bool
deriving DecidableEq, Repr

def toDependency (specifier : String) : Input := ⟨specifier, false⟩

def toProductionDependency (specifier : String) : Input := ⟨specifier, true⟩

/-- `Modelled from the spec:` `getPackageNameFromModuleSpecifier` from
`util/modules.ts` is not in the source snapshot.  The spec says an external
package name is "derived by stripping subpath from the specifier": a
relative or absolute specifier yields no package name; a scoped specifier
keeps its first two `/`-separated segments; a bare specifier keeps its
first segment.  An empty result yields no package name (the caller filters
with `Boolean`). -/
def splitOnChar (c : Char) : List Char → List (List Char)
  | [] => [[]]
  | x :: xs =>
    let r := splitOnChar c xs
    if x = c then [] :: r
    else
      match r with
      | [] => [[x]]
      | y :: ys => (x :: y) :: ys

def getPackageNameFromModuleSpecifier (spec : String) : Option String :=
  match spec.toList with
  | [] => none
  | c :: cs =>
    if c = '.' || c = '/' then none
    else
      let parts := splitOnChar '/' (c :: cs)
      let name :=
        if c = '@' then
          match parts with
          | p1 :: p2 :: _ => p1 ++ '/' :: p2
          | [p1] => p1
          | [] => []
        else parts.headD []
      if name = [] then none else some (String.mk name)

/-! ### The expo config data model (from `plugins/expo/types.ts` usage in
`helpers.ts`)

Only the fields `helpers.ts` reads are modelled.  `notification` and
`androidNavigationBar` are objects in the source and are only tested for
truthiness, so they are booleans (present and truthy, or not); the string
fields are tested for JS truthiness, where the empty string is falsy. -/

structure Updates where
  enabled : Option Bool
deriving DecidableEq, Repr

structure AndroidConfig where
  userInterfaceStyle : Option String
deriving DecidableEq, Repr

structure IosConfig where
  backgroundColor : Option String
deriving DecidableEq, Repr

/-- An entry of `config.plugins`: either a bare specifier string or an
array whose first element is the specifier (the source reads only
`plugin[0]`, so the options element of a `[string, options]` tuple is not
modelled). -/
inductive ExpoPlugin where
  | str (name : String)
  | arr (elems : List String)
deriving DecidableEq, Repr

/-- `Array.isArray(plugin) ? plugin[0] : plugin` — `plugin[0]` of an empty
array is `undefined`. -/
def pluginSpecifier : ExpoPlugin → Option String
  | .str s => some s
  | .arr l => l.head?

structure ExpoConfig where
  platforms : Option (List String)
  plugins : Option (List ExpoPlugin)
  updates : Option Updates
  notification : Bool
  userInterfaceStyle : Option String
  android : Option AndroidConfig
  backgroundColor : Option String
  ios : Option IosConfig
  androidNavigationBar : Bool
deriving DecidableEq, Repr

/-- The value passed as `localConfig` after a possible function call:
either the config object directly, or an object with an `expo` key holding
it (`'expo' in expoConfig ? expoConfig.expo : expoConfig`). -/
inductive ExpoConfigValue where
  | direct (c : ExpoConfig)
  | wrapped (c : ExpoConfig)

/-- `localConfig` itself: a plain value or a function returning one
(`typeof localConfig === 'function' ? localConfig() : localConfig`). -/
inductive LocalExpoConfig where
  | value (v : ExpoConfigValue)
  | func (f : Unit → ExpoConfigValue)

def unwrapLocal : LocalExpoConfig → ExpoConfigValue
  | .value v => v
  | .func f => f ()

def configOf : ExpoConfigValue → ExpoConfig
  | .direct c => c
  | .wrapped c => c

/-- The manifest (`package.json`) fields read by the plugin.  The
dependency maps are association lists (package name, version range). -/
structure Manifest where
  main : Option String
  dependencies : Option (List (String × String))
  devDependencies : Option (List (String × String))
deriving DecidableEq, Repr

/-- JS truthiness of an optional string field (`undefined` and `""` are
falsy). -/
def truthyStr : Option String → Bool
  | none => false
  | some s => s ≠ ""

/-! ### `getDependencies` (from `plugins/expo/helpers.ts`)

The source accumulates into a `Set<Input>`, but every `add` receives a
freshly allocated object, so the `Set` (which compares by reference) never
merges two additions; the faithful embedding is a list in insertion order.
The function body is split into one definition per source block, and
`getDependenciesCore` concatenates them in source order. -/

def pluginPackages (config : ExpoConfig) : List String :=
  (((config.plugins.getD []).filterMap
      (fun p => (pluginSpecifier p).bind getPackageNameFromModuleSpecifier)).filter
    (fun s => s ≠ ""))

def allowedPackages : List String := ["expo-atlas", "expo-dev-client"]

def allowedProductionPackages : List String := ["expo-insights"]

def manifestDependencies (manifest : Manifest) : List String :=
  (manifest.dependencies.getD []).map Prod.fst

/-- Lines 29–39: the allow-listed packages, added only when present in
`manifest.dependencies`. -/
def allowlistInputs (manifest : Manifest) : List Input :=
  ((allowedPackages.filter (fun p => (manifestDependencies manifest).contains p)).map
      toDependency) ++
    ((allowedProductionPackages.filter
        (fun p => (manifestDependencies manifest).contains p)).map
      toProductionDependency)

/-- Lines 41–43: `if (config.updates?.enabled !== false)`. -/
def updatesInputs (config : ExpoConfig) : List Input :=
  if (config.updates.bind Updates.enabled) ≠ some false then
    [toProductionDependency "expo-updates"]
  else []

/-- Lines 45–47: `if (config.notification)`. -/
def notificationInputs (config : ExpoConfig) : List Input :=
  if config.notification then [toProductionDependency "expo-notifications"] else []

/-- Lines 49–54: `manifest.main === 'expo-router/entry'`. -/
def isExpoRouter (manifest : Manifest) : Bool :=
  manifest.main = some "expo-router/entry"

def routerInputs (manifest : Manifest) : List Input :=
  if isExpoRouter manifest then [toProductionDependency "expo-router"] else []

/-- Lines 56–65: web platform deps, `@expo/metro-runtime` only without
expo-router. -/
def webInputs (platforms : List String) (manifest : Manifest) : List Input :=
  if platforms.contains "web" then
    [toProductionDependency "react-native-web", toProductionDependency "react-dom"] ++
      (if !isExpoRouter manifest then [toDependency "@expo/metro-runtime"] else [])
  else []

/-- Lines 67–72. -/
def systemUiInputs (platforms : List String) (config : ExpoConfig) : List Input :=
  if (platforms.contains "android" &&
        (truthyStr config.userInterfaceStyle ||
          truthyStr (config.android.bind AndroidConfig.userInterfaceStyle))) ||
      (platforms.contains "ios" &&
        (truthyStr config.backgroundColor ||
          truthyStr (config.ios.bind IosConfig.backgroundColor))) then
    [toProductionDependency "expo-system-ui"]
  else []

/-- Lines 74–76. -/
def navBarInputs (platforms : List String) (config : ExpoConfig) : List Input :=
  if platforms.contains "android" && config.androidNavigationBar then
    [toProductionDependency "expo-navigation-bar"]
  else []

def getDependenciesCore (config : ExpoConfig) (manifest : Manifest) : List Input :=
  let platforms := config.platforms.getD ["ios", "android"]
  ((pluginPackages config).map toDependency) ++
    allowlistInputs manifest ++
    updatesInputs config ++
    notificationInputs config ++
    routerInputs manifest ++
    webInputs platforms manifest ++
    systemUiInputs platforms config ++
    navBarInputs platforms config

def getDependencies (localConfig : LocalExpoConfig) (manifest : Manifest) : List Input :=
  getDependenciesCore (configOf (unwrapLocal localConfig)) manifest

/-- State-passing form of the same source function: the body of
`getDependencies` declares only the local `inputs` and never assigns to its
parameters, so the embedding that threads the arguments through returns
them at the end.  The body is repeated here (not defined via
`getDependencies`) so that the agreement of the two is a theorem. -/
def getDependenciesRun (localConfig : LocalExpoConfig) (manifest : Manifest) :
    List Input × LocalExpoConfig × Manifest :=
  let config := configOf (unwrapLocal localConfig)
  let platforms := config.platforms.getD ["ios", "android"]
  let inputs :=
    ((pluginPackages config).map toDependency) ++
      allowlistInputs manifest ++
      updatesInputs config ++
      notificationInputs config ++
      routerInputs manifest ++
      webInputs platforms manifest ++
      systemUiInputs platforms config ++
      navBarInputs platforms config
  (inputs, localConfig, manifest)

/-! ### Membership characterizations for each block of `getDependencies` -/

theorem mem_map_toDependency {i : Input} {l : List String} :
    i ∈ l.map toDependency ↔ i.production = false ∧ i.specifier ∈ l := by
  cases i with
  | mk s p =>
    simp [toDependency, List.mem_map, Input.mk.injEq]
    constructor
    · rintro ⟨a, ha, rfl, rfl⟩; exact ⟨rfl, ha⟩
    · rintro ⟨rfl, hs⟩; exact ⟨s, hs, rfl, rfl⟩

theorem mem_allowlistInputs {i : Input} {m : Manifest} :
    i ∈ allowlistInputs m ↔
      ((i = toDependency "expo-atlas" ∧ "expo-atlas" ∈ manifestDependencies m) ∨
        (i = toDependency "expo-dev-client" ∧ "expo-dev-client" ∈ manifestDependencies m) ∨
        (i = toProductionDependency "expo-insights" ∧
          "expo-insights" ∈ manifestDependencies m)) := by
  simp only [allowlistInputs, allowedPackages, allowedProductionPackages, List.mem_append,
    List.mem_map, List.mem_filter, List.elem_iff]
  constructor
  · rintro (⟨a, ⟨ha, hmem⟩, rfl⟩ | ⟨a, ⟨ha, hmem⟩, rfl⟩) <;>
      simp only [List.mem_cons, List.mem_singleton, List.not_mem_nil, or_false] at ha <;>
      rcases ha with rfl | rfl <;> simp_all
  · rintro (⟨rfl, h⟩ | ⟨rfl, h⟩ | ⟨rfl, h⟩)
    · exact Or.inl ⟨"expo-atlas", ⟨by simp, h⟩, rfl⟩
    · exact Or.inl ⟨"expo-dev-client", ⟨by simp, h⟩, rfl⟩
    · exact Or.inr ⟨"expo-insights", ⟨by simp, h⟩, rfl⟩

theorem mem_updatesInputs {i : Input} {c : ExpoConfig} :
    i ∈ updatesInputs c ↔
      i = toProductionDependency "expo-updates" ∧
        (c.updates.bind Updates.enabled) ≠ some false := by
  unfold updatesInputs
  split <;> simp_all

theorem mem_notificationInputs {i : Input} {c : ExpoConfig} :
    i ∈ notificationInputs c ↔
      i = toProductionDependency "expo-notifications" ∧ c.notification = true := by
  unfold notificationInputs
  split <;> simp_all

theorem mem_routerInputs {i : Input} {m : Manifest} :
    i ∈ routerInputs m ↔
      i = toProductionDependency "expo-router" ∧ isExpoRouter m = true := by
  unfold routerInputs
  split <;> simp_all

theorem mem_webInputs {i : Input} {pl : List String} {m : Manifest} :
    i ∈ webInputs pl m ↔
      "web" ∈ pl ∧
        (i = toProductionDependency "react-native-web" ∨
          i = toProductionDependency "react-dom" ∨
          (i = toDependency "@expo/metro-runtime" ∧ isExpoRouter m = false)) := by
  unfold webInputs
  split
  · next h =>
    simp only [List.elem_iff] at h
    by_cases hr : isExpoRouter m <;> simp_all [List.mem_cons]
  · next h =>
    simp only [List.elem_iff] at h
    simp_all

theorem mem_systemUiInputs {i : Input} {pl : List String} {c : ExpoConfig} :
    i ∈ systemUiInputs pl c ↔
      i = toProductionDependency "expo-system-ui" ∧
        ((pl.contains "android" &&
            (truthyStr c.userInterfaceStyle ||
              truthyStr (c.android.bind AndroidConfig.userInterfaceStyle))) ||
          (pl.contains "ios" &&
            (truthyStr c.backgroundColor ||
              truthyStr (c.ios.bind IosConfig.backgroundColor)))) = true := by
  unfold systemUiInputs
  split <;> simp_all

theorem mem_navBarInputs {i : Input} {pl : List String} {c : ExpoConfig} :
    i ∈ navBarInputs pl c ↔
      i = toProductionDependency "expo-navigation-bar" ∧
        (pl.contains "android" && c.androidNavigationBar) = true := by
  unfold navBarInputs
  split <;> simp_all

theorem mem_getDependenciesCore {i : Input} {c : ExpoConfig} {m : Manifest} :
    i ∈ getDependenciesCore c m ↔
      (i ∈ (pluginPackages c).map toDependency ∨
        i ∈ allowlistInputs m ∨
        i ∈ updatesInputs c ∨
        i ∈ notificationInputs c ∨
        i ∈ routerInputs m ∨
        i ∈ webInputs (c.platforms.getD ["ios", "android"]) m ∨
        i ∈ systemUiInputs (c.platforms.getD ["ios", "android"]) c ∨
        i ∈ navBarInputs (c.platforms.getD ["ios", "android"]) c) := by
  simp [getDependenciesCore, List.mem_append, or_assoc]

/-- A production-classified input never comes from the `config.plugins`
block: that block only calls `toDependency`. -/
theorem production_not_mem_pluginPackages_map {s : String} {c : ExpoConfig} :
    toProductionDependency s ∉ (pluginPackages c).map toDependency := by
  intro h
  rw [mem_map_toDependency] at h
  simp [toProductionDependency] at h

theorem mk_of_ne_nil_ne_empty {l : List Char} {n : String}
    (h : (if l = [] then none else some (String.mk l)) = some n) : n ≠ "" := by
  split at h
  · simp at h
  · next hne =>
    cases Option.some.inj h
    intro he
    exact hne (congrArg String.data he)

theorem getPackageNameFromModuleSpecifier_ne_empty {s n : String}
    (h : getPackageNameFromModuleSpecifier s = some n) : n ≠ "" := by
  unfold getPackageNameFromModuleSpecifier at h
  split at h
  · simp at h
  · split at h
    · simp at h
    · exact mk_of_ne_nil_ne_empty h

theorem mem_pluginPackages {c : ExpoConfig} {p : ExpoPlugin} {pkg : String}
    (hp : p ∈ c.plugins.getD [])
    (hd : (pluginSpecifier p).bind getPackageNameFromModuleSpecifier = some pkg) :
    pkg ∈ pluginPackages c := by
  obtain ⟨s, hs, hn⟩ := Option.bind_eq_some.mp hd
  unfold pluginPackages
  rw [List.mem_filter]
  refine ⟨List.mem_filterMap.mpr ⟨p, hp, hd⟩, ?_⟩
  simpa using getPackageNameFromModuleSpecifier_ne_empty hn

/-! ### Unused-dependency classifier (modelled from the spec)

`Modelled from the spec:` the issue classifier (C8 in the spec's component
table) is not in the source snapshot.  Per workspace the attribution table
maps a package name to `{referenced-from-files, referenced-by-plugin,
marked-ignore}`, and "a package is unused iff referenced-from-files and
referenced-by-plugin are both empty and not marked-ignore". -/

/-- The referenced-by-plugin set of a package: those attributed inputs that
name it. -/
def pluginAttribution (inputs : List Input) (pkg : String) : List Input :=
  inputs.filter (fun i => i.specifier = pkg)

/-- `Modelled from the spec:` "a package is unused iff
referenced-from-files and referenced-by-plugin are both empty and not
marked-ignore". -/
def isUnusedDependency (referencedFromFiles : List String)
    (referencedByPlugin : List Input) (markedIgnore : Bool) : Bool :=
  referencedFromFiles.isEmpty && referencedByPlugin.isEmpty && !markedIgnore

/-- Concrete expo config with every optional field absent and every object
field missing (falsy). -/
def emptyExpoConfig : ExpoConfig :=
  { platforms := none, plugins := none, updates := none, notification := false,
    userInterfaceStyle := none, android := none, backgroundColor := none,
    ios := none, androidNavigationBar := false }

/-- Concrete manifest with no `main`, no dependency maps. -/
def emptyManifest : Manifest :=
  { main := none, dependencies := none, devDependencies := none }

/-! ### Claims about `getDependencies` -/

/-- C1: for every expo config and manifest, if the manifest's `main` field
is exactly `"expo-router/entry"`, the returned input list contains
`expo-router` as a production dependency — the attribution does not depend
on any source-level import, only on the manifest field. -/
theorem claim_C1_expo_router_attributed (lc : LocalExpoConfig) (m : Manifest)
    (h : m.main = some "expo-router/entry") :
    toProductionDependency "expo-router" ∈ getDependencies lc m := by
  have hr : isExpoRouter m = true := by simp [isExpoRouter, h]
  rw [getDependencies, mem_getDependenciesCore]
  refine Or.inr (Or.inr (Or.inr (Or.inr (Or.inl ?_))))
  rw [mem_routerInputs]
  exact ⟨rfl, hr⟩

/-- Witness for C1 at the manifest `{ main: "expo-router/entry" }` and the
empty expo config. -/
theorem claim_C1_witness :
    ({ emptyManifest with main := some "expo-router/entry" } : Manifest).main =
        some "expo-router/entry" ∧
      toProductionDependency "expo-router" ∈
        getDependencies (.value (.direct emptyExpoConfig))
          { emptyManifest with main := some "expo-router/entry" } :=
  ⟨rfl,
    claim_C1_expo_router_attributed (.value (.direct emptyExpoConfig))
      { emptyManifest with main := some "expo-router/entry" } rfl⟩

/-- C5: `getDependencies` is deterministic and side-effect free.  In the
state-passing embedding `getDependenciesRun`, which returns the final
values of both arguments alongside the result, the arguments come back
unmodified and the result is the (pure) function of the two arguments —
so any two calls on a fixed pair return equal input lists. -/
theorem claim_C5_deterministic_pure (lc : LocalExpoConfig) (m : Manifest) :
    getDependenciesRun lc m = (getDependencies lc m, lc, m) := rfl

/-- C8: an absent `platforms` field behaves exactly as `['ios','android']`,
and `react-native-web` / `react-dom` are attributed as production
dependencies iff `'web'` is in the (defaulted) platforms list. -/
theorem claim_C8_platforms_default :
    (∀ (c : ExpoConfig) (m : Manifest),
        getDependenciesCore { c with platforms := none } m =
          getDependenciesCore { c with platforms := some ["ios", "android"] } m) ∧
      ∀ (lc : LocalExpoConfig) (m : Manifest),
        ((toProductionDependency "react-native-web" ∈ getDependencies lc m) ↔
            "web" ∈ (configOf (unwrapLocal lc)).platforms.getD ["ios", "android"]) ∧
          ((toProductionDependency "react-dom" ∈ getDependencies lc m) ↔
            "web" ∈ (configOf (unwrapLocal lc)).platforms.getD ["ios", "android"]) := by
  constructor
  · intro c m
    rfl
  · intro lc m
    constructor <;>
      · rw [getDependencies, mem_getDependenciesCore]
        simp [mem_allowlistInputs, mem_updatesInputs, mem_notificationInputs,
          mem_routerInputs, mem_webInputs, mem_systemUiInputs, mem_navBarInputs,
          mem_map_toDependency, toDependency, toProductionDependency, Input.mk.injEq]

/-- C9: `expo-updates` is attributed as a production dependency iff
`config.updates?.enabled !== false`, i.e. also when `updates` is absent or
`enabled` is undefined; the production attribution is omitted exactly when
`updates.enabled === false`. -/
theorem claim_C9_expo_updates (lc : LocalExpoConfig) (m : Manifest) :
    toProductionDependency "expo-updates" ∈ getDependencies lc m ↔
      (configOf (unwrapLocal lc)).updates.bind Updates.enabled ≠ some false := by
  rw [getDependencies, mem_getDependenciesCore]
  simp [mem_allowlistInputs, mem_updatesInputs, mem_notificationInputs,
    mem_routerInputs, mem_webInputs, mem_systemUiInputs, mem_navBarInputs,
    mem_map_toDependency, toDependency, toProductionDependency, Input.mk.injEq]

/-- C6: every entry of `config.plugins` whose specifier (first element for
array entries) yields a package name puts that package into the attributed
inputs; its referenced-by-plugin set is then non-empty, so under the
spec's invariant it is never classified as an unused dependency. -/
theorem claim_C6_plugin_entries_attributed (lc : LocalExpoConfig) (m : Manifest)
    (p : ExpoPlugin) (pkg : String)
    (hp : p ∈ (configOf (unwrapLocal lc)).plugins.getD [])
    (hd : (pluginSpecifier p).bind getPackageNameFromModuleSpecifier = some pkg) :
    toDependency pkg ∈ getDependencies lc m ∧
      pluginAttribution (getDependencies lc m) pkg ≠ [] ∧
      ∀ (refFiles : List String) (ign : Bool),
        isUnusedDependency refFiles (pluginAttribution (getDependencies lc m) pkg) ign =
          false := by
  have hmem : pkg ∈ pluginPackages (configOf (unwrapLocal lc)) := mem_pluginPackages hp hd
  have h1 : toDependency pkg ∈ getDependencies lc m := by
    rw [getDependencies, mem_getDependenciesCore]
    exact Or.inl (mem_map_toDependency.mpr ⟨rfl, hmem⟩)
  have h2 : toDependency pkg ∈ pluginAttribution (getDependencies lc m) pkg := by
    rw [pluginAttribution, List.mem_filter]
    exact ⟨h1, by simp [toDependency]⟩
  have hne : pluginAttribution (getDependencies lc m) pkg ≠ [] := by
    intro hnil
    rw [hnil] at h2
    simp at h2
  refine ⟨h1, hne, fun refFiles ign => ?_⟩
  unfold isUnusedDependency
  have hempty : (pluginAttribution (getDependencies lc m) pkg).isEmpty = false := by
    cases hpa : pluginAttribution (getDependencies lc m) pkg with
    | nil => exact absurd hpa hne
    | cons a l => simp [List.isEmpty]
  simp [hempty]

/-- Witness for C6: the config `{ plugins: ['expo-camera'] }` attributes
`expo-camera`, and the package is not classified unused even with no file
references. -/
theorem claim_C6_witness :
    toDependency "expo-camera" ∈
        getDependencies
          (.value (.direct { emptyExpoConfig with plugins := some [.str "expo-camera"] }))
          emptyManifest ∧
      isUnusedDependency []
          (pluginAttribution
            (getDependencies
              (.value (.direct { emptyExpoConfig with plugins := some [.str "expo-camera"] }))
              emptyManifest)
            "expo-camera")
          false = false := by
  have h :=
    claim_C6_plugin_entries_attributed
      (.value (.direct { emptyExpoConfig with plugins := some [.str "expo-camera"] }))
      emptyManifest (.str "expo-camera") "expo-camera" (by decide) (by decide)
  exact ⟨h.1, h.2.2 [] false⟩

/-- C7 counterexample: with config `{ plugins: ['expo-atlas'] }` and a
manifest with no `dependencies`, `expo-atlas` is attributed (via the
plugins block) although it is not a key of `manifest.dependencies` — so
"attributed iff a key of the manifest's dependencies map" fails as
stated. -/
theorem claim_C7_counterexample :
    toDependency "expo-atlas" ∈
        getDependencies
          (.value (.direct { emptyExpoConfig with plugins := some [.str "expo-atlas"] }))
          emptyManifest ∧
      "expo-atlas" ∉ manifestDependencies emptyManifest := by
  constructor
  · rw [getDependencies, mem_getDependenciesCore]
    refine Or.inl (mem_map_toDependency.mpr ⟨rfl, ?_⟩)
    exact mem_pluginPackages (p := .str "expo-atlas") (by decide) (by decide)
  · decide

/-- C7 (amended): provided `expo-atlas` / `expo-dev-client` are not among
the package names derived from `config.plugins` (which can independently
attribute them), `expo-atlas` and `expo-dev-client` are attributed as
plain dependencies iff they are keys of `manifest.dependencies`;
`expo-insights` is attributed as a production dependency iff it is such a
key (unconditionally, since the plugins block never produces a
production-classified input); and `devDependencies` entries are never
considered. -/
theorem claim_C7_allowlist_classification (lc : LocalExpoConfig) (m : Manifest)
    (ha : "expo-atlas" ∉ pluginPackages (configOf (unwrapLocal lc)))
    (hd : "expo-dev-client" ∉ pluginPackages (configOf (unwrapLocal lc))) :
    (toDependency "expo-atlas" ∈ getDependencies lc m ↔
        "expo-atlas" ∈ manifestDependencies m) ∧
      (toDependency "expo-dev-client" ∈ getDependencies lc m ↔
        "expo-dev-client" ∈ manifestDependencies m) ∧
      (toProductionDependency "expo-insights" ∈ getDependencies lc m ↔
        "expo-insights" ∈ manifestDependencies m) ∧
      ∀ dd, getDependencies lc { m with devDependencies := dd } = getDependencies lc m := by
  refine ⟨?_, ?_, ?_, fun dd => rfl⟩ <;>
    · rw [getDependencies, mem_getDependenciesCore]
      simp [mem_allowlistInputs, mem_updatesInputs, mem_notificationInputs,
        mem_routerInputs, mem_webInputs, mem_systemUiInputs, mem_navBarInputs,
        mem_map_toDependency, toDependency, toProductionDependency, Input.mk.injEq, ha, hd]

/-- Witness for C7 (amended) at the empty config (no plugins) and the
manifest `{ dependencies: { "expo-atlas": "*" } }`. -/
theorem claim_C7_witness :
    ("expo-atlas" ∉ pluginPackages (configOf (unwrapLocal (.value (.direct emptyExpoConfig)))) ∧
        "expo-dev-client" ∉
          pluginPackages (configOf (unwrapLocal (.value (.direct emptyExpoConfig))))) ∧
      toDependency "expo-atlas" ∈
        getDependencies (.value (.direct emptyExpoConfig))
          { emptyManifest with dependencies := some [("expo-atlas", "*")] } := by
  refine ⟨⟨by decide, by decide⟩, ?_⟩
  exact
    ((claim_C7_allowlist_classification (.value (.direct emptyExpoConfig))
          { emptyManifest with dependencies := some [("expo-atlas", "*")] }
          (by decide) (by decide)).1).mpr
      (by decide)

/-- C10 counterexample: with config
`{ platforms: ['ios'], plugins: ['@expo/metro-runtime'] }` the package
`@expo/metro-runtime` is attributed although `'web'` is not a platform —
so "attributed iff web platform and not expo-router" fails as stated. -/
theorem claim_C10_counterexample :
    toDependency "@expo/metro-runtime" ∈
        getDependencies
          (.value
            (.direct
              { emptyExpoConfig with
                platforms := some ["ios"],
                plugins := some [.str "@expo/metro-runtime"] }))
          emptyManifest ∧
      "web" ∉
        (configOf
            (unwrapLocal
              (.value
                (.direct
                  { emptyExpoConfig with
                    platforms := some ["ios"],
                    plugins := some [.str "@expo/metro-runtime"] })))).platforms.getD
          ["ios", "android"] := by
  constructor
  · rw [getDependencies, mem_getDependenciesCore]
    refine Or.inl (mem_map_toDependency.mpr ⟨rfl, ?_⟩)
    exact mem_pluginPackages (p := .str "@expo/metro-runtime") (by decide) (by decide)
  · decide

/-- C10 (amended): provided `@expo/metro-runtime` is not among the package
names derived from `config.plugins` (which can independently attribute
it), `@expo/metro-runtime` is attributed iff `'web'` is in the (defaulted)
platforms list and the manifest's `main` is not `'expo-router/entry'`. -/
theorem claim_C10_metro_runtime (lc : LocalExpoConfig) (m : Manifest)
    (h : "@expo/metro-runtime" ∉ pluginPackages (configOf (unwrapLocal lc))) :
    toDependency "@expo/metro-runtime" ∈ getDependencies lc m ↔
      ("web" ∈ (configOf (unwrapLocal lc)).platforms.getD ["ios", "android"] ∧
        m.main ≠ some "expo-router/entry") := by
  rw [getDependencies, mem_getDependenciesCore]
  simp [mem_allowlistInputs, mem_updatesInputs, mem_notificationInputs,
    mem_routerInputs, mem_webInputs, mem_systemUiInputs, mem_navBarInputs,
    mem_map_toDependency, toDependency, toProductionDependency, Input.mk.injEq, h,
    isExpoRouter]

/-- Witness for C10 (amended) at the config `{ platforms: ['web'] }` and
the empty manifest. -/
theorem claim_C10_witness :
    "@expo/metro-runtime" ∉
        pluginPackages
          (configOf
            (unwrapLocal
              (.value (.direct { emptyExpoConfig with platforms := some ["web"] })))) ∧
      toDependency "@expo/metro-runtime" ∈
        getDependencies (.value (.direct { emptyExpoConfig with platforms := some ["web"] }))
          emptyManifest := by
  refine ⟨by decide, ?_⟩
  exact
    (claim_C10_metro_runtime
          (.value (.direct { emptyExpoConfig with platforms := some ["web"] }))
          emptyManifest (by decide)).mpr
      ⟨by decide, by decide⟩

/-! ## Part 2: reachability and the unused-exports classifier

The reachability engine and the issue classifier are not in the source
snapshot; they are modelled from the spec together with the repository's
own documentation page (`Handling Issues`), which pins their observable
behavior down for exactly the situations the claims are about. -/

/-! ### Unused files and dynamic import specifiers (C3) -/

/-- An import specifier at a use site: a string literal, or one built from
non-literal parts (a template literal or a concatenation with a variable).
`Modelled from the spec:` the docs (`Handling Issues`, section on dynamic
specifiers) state that such specifiers are not resolved. -/
inductive Specifier where
  | lit (s : String)
  | dynamic
deriving DecidableEq, Repr

/-- A project for the traversal: the project file set, the entry set, the
per-file import specifiers, and the module resolver restricted to the
project (a finite literal-specifier → file map). -/
structure FileGraph where
  files : List String
  entries : List String
  imports : List (String × List Specifier)
  resolveMap : List (String × String)
deriving Repr

/-- `Modelled from the spec:` the Module Resolver (spec §4.4) abstracted to
a finite map; a dynamic specifier resolves to nothing (the docs: dynamic
specifiers are not resolved). -/
def resolveSpec (g : FileGraph) : Specifier → Option String
  | .lit s => (g.resolveMap.find? (fun p => p.1 = s)).map Prod.snd
  | .dynamic => none

def importsOfFile (g : FileGraph) (f : String) : List Specifier :=
  ((g.imports.find? (fun p => p.1 = f)).map Prod.snd).getD []

/-- The resolved import edges out of `f`; unresolved (in particular
dynamic) specifiers contribute no edge. -/
def edgesOf (g : FileGraph) (f : String) : List String :=
  (importsOfFile g f).filterMap (resolveSpec g)

/-- `Modelled from the spec:` the Reachability Engine's worklist traversal
(spec §4.7), fuel-indexed; the fuel in `resolvedClosure` bounds the total
number of queue insertions, so the worklist always drains. -/
def reachAux (g : FileGraph) : Nat → List String → List String → List String
  | 0, visited, _ => visited
  | _ + 1, visited, [] => visited
  | n + 1, visited, f :: queue =>
    if f ∈ visited then reachAux g n visited queue
    else reachAux g n (visited ++ [f]) (queue ++ edgesOf g f)

/-- The entry files together with every file resolved from them. -/
def resolvedClosure (g : FileGraph) : List String :=
  reachAux g (g.entries.length + ((g.imports.map (fun p => p.2.length)).sum) + 1)
    [] g.entries

/-- `Modelled from the spec:` the docs state
`unused files = project files - (entry files + resolved files)`. -/
def unusedFiles (g : FileGraph) : List String :=
  g.files.filter (fun f => !(resolvedClosure g).contains f)

/-- Everything the traversal visits is an entry or the target of some
resolved import edge. -/
theorem reachAux_sound (g : FileGraph) (fuel : Nat) :
    ∀ (visited queue : List String),
      (∀ x ∈ visited, x ∈ g.entries ∨ ∃ p, x ∈ edgesOf g p) →
      (∀ x ∈ queue, x ∈ g.entries ∨ ∃ p, x ∈ edgesOf g p) →
      ∀ x ∈ reachAux g fuel visited queue, x ∈ g.entries ∨ ∃ p, x ∈ edgesOf g p := by
  induction fuel with
  | zero => intro visited queue hv _ x hx; exact hv x hx
  | succ n ih =>
    intro visited queue hv hq x hx
    cases queue with
    | nil => exact hv x hx
    | cons f q =>
      simp only [reachAux] at hx
      split at hx
      · exact ih visited q hv (fun y hy => hq y (List.mem_cons_of_mem _ hy)) x hx
      · refine ih _ _ ?_ ?_ x hx
        · intro y hy
          rcases List.mem_append.mp hy with h | h
          · exact hv y h
          · rw [List.mem_singleton.mp h]
            exact hq f (List.mem_cons_self _ _)
        · intro y hy
          rcases List.mem_append.mp hy with h | h
          · exact hq y (List.mem_cons_of_mem _ h)
          · exact Or.inr ⟨f, h⟩

/-- Every resolved edge target comes from some file's import list via the
resolver. -/
theorem edgesOf_target (g : FileGraph) (p : String) {f : String}
    (h : f ∈ edgesOf g p) :
    ∃ pr ∈ g.imports, ∃ s ∈ pr.2, resolveSpec g s = some f := by
  obtain ⟨s, hs, hres⟩ := List.mem_filterMap.mp h
  unfold importsOfFile at hs
  cases hfind : g.imports.find? (fun pr => pr.1 = p) with
  | none => rw [hfind] at hs; simp at hs
  | some pr =>
    rw [hfind] at hs
    simp at hs
    exact ⟨pr, List.mem_of_find?_eq_some hfind, s, hs, hres⟩

/-- C3: a dynamic import specifier resolves to nothing, hence contributes
no import edge; a project file that is not an entry and is not the target
of any resolvable specifier — in particular one "matched" only by a
dynamic specifier — is reported as an unused file.  (The spec's sentence
about a sibling-file suppression heuristic has no counterpart in the
repository docs, which prescribe `unused files = project files - (entry
files + resolved files)` with dynamic specifiers resolving to nothing.) -/
theorem claim_C3_dynamic_specifier_no_suppression (g : FileGraph) (f : String)
    (hf : f ∈ g.files) (hent : f ∉ g.entries)
    (hnores : ∀ pr ∈ g.imports, ∀ s ∈ pr.2, resolveSpec g s ≠ some f) :
    resolveSpec g Specifier.dynamic = none ∧ f ∈ unusedFiles g := by
  refine ⟨rfl, ?_⟩
  have hnotreach : f ∉ resolvedClosure g := by
    intro hin
    rcases reachAux_sound g _ [] g.entries (by simp)
        (fun x hx => Or.inl hx) f hin with h | ⟨p, hp⟩
    · exact hent h
    · obtain ⟨pr, hpr, s, hs, hres⟩ := edgesOf_target g p hp
      exact hnores pr hpr s hs hres
  rw [unusedFiles, List.mem_filter]
  refine ⟨hf, ?_⟩
  simpa using hnotreach

/-- Witness for C3 at the scenario of the docs: `index.ts` (the only
entry) imports only through a dynamic specifier, `entry-a.ts` exists in the
project but is never resolvably imported — it is reported unused. -/
theorem claim_C3_witness :
    ("entry-a.ts" ∈ (FileGraph.mk ["index.ts", "entry-a.ts"] ["index.ts"]
          [("index.ts", [Specifier.dynamic])] []).files ∧
        "entry-a.ts" ∉ (FileGraph.mk ["index.ts", "entry-a.ts"] ["index.ts"]
          [("index.ts", [Specifier.dynamic])] []).entries) ∧
      "entry-a.ts" ∈ unusedFiles (FileGraph.mk ["index.ts", "entry-a.ts"] ["index.ts"]
        [("index.ts", [Specifier.dynamic])] []) := by
  refine ⟨⟨by decide, by decide⟩, ?_⟩
  exact (claim_C3_dynamic_specifier_no_suppression
    (FileGraph.mk ["index.ts", "entry-a.ts"] ["index.ts"]
      [("index.ts", [Specifier.dynamic])] [])
    "entry-a.ts" (by decide) (by decide) (by decide)).2

/-! ### Reference edges and the unused-exports classifier (C2, C4) -/

/-- An export declaration: owning file, export name, JSDoc tag set. -/
structure ExportDecl where
  file : String
  name : String
  tags : List String
deriving DecidableEq, Repr

/-- A use site of an imported module observed in some reachable file.
`Modelled from the spec:` the Reference Extractor's catalogue of
namespace-import uses (spec §4.6), with the contribution of each pattern
fixed by the repository docs: direct named use and namespace member access
mark that export referenced, destructuring marks the destructured names
only, and a whole-namespace enumeration (`Object.values(ns)`, `for … in
ns`, spread, passing `ns` to an unknown function) marks no individual
export referenced — the docs (`Handling Issues`, section `Enumerations`)
state "Currently Knip does not consider all exports or enum members
referenced when implicitly referenced in an enumeration". -/
inductive UseSite where
  | namedUse (targetFile name : String)
  | nsMemberAccess (targetFile member : String)
  | nsEnumeration (targetFile : String)
  | nsDestructure (targetFile : String) (names : List String)
deriving DecidableEq, Repr

/-- The reference edges one use site contributes. -/
def refsOfUse : UseSite → List (String × String)
  | .namedUse f n => [(f, n)]
  | .nsMemberAccess f m => [(f, m)]
  | .nsEnumeration _ => []
  | .nsDestructure f ns => ns.map (fun n => (f, n))

/-- The analysis state the classifier reads: reachable files, entry files,
the materialized exports, the use sites of all reachable files, and the
include-entry-exports option. -/
structure Analysis where
  reachableFiles : List String
  entryFiles : List String
  exports : List ExportDecl
  uses : List UseSite
  includeEntryExports : Bool
deriving Repr

def referenceEdges (a : Analysis) : List (String × String) :=
  (a.uses.map refsOfUse).flatten

/-- `Modelled from the spec:` "Unused exports = exports of files that are
reachable but whose export has zero references; suppressed when the owning
file is in the entry set unless the explicit include-entry-exports option
is set; suppressed when tagged `@public` or equivalent." -/
def unusedExports (a : Analysis) : List ExportDecl :=
  a.exports.filter (fun e =>
    a.reachableFiles.contains e.file &&
      !((referenceEdges a).contains (e.file, e.name)) &&
      (a.includeEntryExports || !(a.entryFiles.contains e.file)) &&
      !(e.tags.contains "public"))

/-- The docs' `Enumerations` example: `fruits.js` exports `apple` and
`orange`; the entry `index.js` does `import * as Fruits from './fruits.js'`
and only enumerates the namespace (`for (const fruit of
Object.values(Fruits))`). -/
def fruitsAnalysis : Analysis :=
  { reachableFiles := ["index.js", "fruits.js"],
    entryFiles := ["index.js"],
    exports := [⟨"fruits.js", "apple", []⟩, ⟨"fruits.js", "orange", []⟩],
    uses := [.nsEnumeration "fruits.js"],
    includeEntryExports := false }

/-- C2 counterexample: in the docs' own `Enumerations` example the module
is used only through `Object.values(Fruits)`, yet `apple` appears in the
unused-exports report (the docs: such exports "are not referenced
explicitly") — so "all exports of the source module are marked referenced
and none appear in the report" fails as stated. -/
theorem claim_C2_counterexample :
    (ExportDecl.mk "fruits.js" "apple" [] ∈ fruitsAnalysis.exports ∧
        UseSite.nsEnumeration "fruits.js" ∈ fruitsAnalysis.uses) ∧
      ExportDecl.mk "fruits.js" "apple" [] ∈ unusedExports fruitsAnalysis := by
  refine ⟨⟨by decide, by decide⟩, by decide⟩

/-- C2 (amended): a whole-namespace enumeration contributes no reference
edge, so — contrary to the claim — it marks no export referenced: every
reachable, untagged, non-entry export whose only uses are namespace
enumerations (no reference edge points to it) appears in the
unused-exports report. -/
theorem claim_C2_namespace_enumeration_not_conservative (a : Analysis)
    (e : ExportDecl) (t : String)
    (he : e ∈ a.exports) (hr : e.file ∈ a.reachableFiles)
    (href : (e.file, e.name) ∉ referenceEdges a)
    (hent : e.file ∉ a.entryFiles) (htag : "public" ∉ e.tags) :
    refsOfUse (UseSite.nsEnumeration t) = [] ∧ e ∈ unusedExports a := by
  refine ⟨rfl, ?_⟩
  rw [unusedExports, List.mem_filter]
  refine ⟨he, ?_⟩
  simp [List.elem_iff, hr, href, hent, htag]

/-- Witness for C2 (amended) at the docs' example: `apple` is reported
unused. -/
theorem claim_C2_witness :
    (ExportDecl.mk "fruits.js" "apple" [] ∈ fruitsAnalysis.exports ∧
        ("fruits.js", "apple") ∉ referenceEdges fruitsAnalysis) ∧
      ExportDecl.mk "fruits.js" "apple" [] ∈ unusedExports fruitsAnalysis := by
  refine ⟨⟨by decide, by decide⟩, ?_⟩
  exact (claim_C2_namespace_enumeration_not_conservative fruitsAnalysis
    (ExportDecl.mk "fruits.js" "apple" []) "fruits.js"
    (by decide) (by decide) (by decide) (by decide) (by decide)).2

/-- C4 counterexample: an export tagged `@public` with zero references on a
reachable non-entry file does not appear in the unused-exports report,
although the claim's "iff" (which omits the tag condition of its own
source sentence) says it must. -/
theorem claim_C4_counterexample :
    (ExportDecl.mk "a.ts" "x" ["public"] ∈
          (Analysis.mk ["a.ts"] [] [⟨"a.ts", "x", ["public"]⟩] [] false).exports ∧
        ("a.ts", "x") ∉
          referenceEdges (Analysis.mk ["a.ts"] [] [⟨"a.ts", "x", ["public"]⟩] [] false) ∧
        "a.ts" ∉ (Analysis.mk ["a.ts"] [] [⟨"a.ts", "x", ["public"]⟩] [] false).entryFiles) ∧
      ExportDecl.mk "a.ts" "x" ["public"] ∉
        unusedExports (Analysis.mk ["a.ts"] [] [⟨"a.ts", "x", ["public"]⟩] [] false) := by
  refine ⟨⟨by decide, by decide, by decide⟩, by decide⟩

/-- C4 (amended): for every export on a reachable file, it appears in the
unused-exports report iff no reference edge points to it, it is not tagged
`@public`, and its owning file is not in the entry set unless the
include-entry-exports option is set. -/
theorem claim_C4_unused_exports_iff (a : Analysis) (e : ExportDecl)
    (he : e ∈ a.exports) (hr : e.file ∈ a.reachableFiles) :
    e ∈ unusedExports a ↔
      ((e.file, e.name) ∉ referenceEdges a ∧ "public" ∉ e.tags ∧
        (a.includeEntryExports = true ∨ e.file ∉ a.entryFiles)) := by
  rw [unusedExports, List.mem_filter]
  simp [List.elem_iff, he, hr]
  tauto

/-- Witness for C4 (amended): an untagged unreferenced export on a
reachable non-entry file is in the report. -/
theorem claim_C4_witness :
    (ExportDecl.mk "b.ts" "y" [] ∈
          (Analysis.mk ["b.ts"] [] [⟨"b.ts", "y", []⟩] [] false).exports ∧
        "b.ts" ∈ (Analysis.mk ["b.ts"] [] [⟨"b.ts", "y", []⟩] [] false).reachableFiles) ∧
      ExportDecl.mk "b.ts" "y" [] ∈
        unusedExports (Analysis.mk ["b.ts"] [] [⟨"b.ts", "y", []⟩] [] false) := by
  refine ⟨⟨by decide, by decide⟩, ?_⟩
  exact (claim_C4_unused_exports_iff
      (Analysis.mk ["b.ts"] [] [⟨"b.ts", "y", []⟩] [] false)
      (ExportDecl.mk "b.ts" "y" []) (by decide) (by decide)).mpr
    ⟨by decide, by decide, Or.inr (by decide)⟩

end Knip
